import Mathlib

/-!
Verification of the order-checkout transaction and payment-reconciliation
core of the admin-igiti e-commerce backend.

The development shallowly embeds the two route handlers
(`src/app/api/[storeId]/checkout/route.ts` and `src/app/api/webhook/route.ts`)
and the Prisma data model (`prisma/schema.prisma`) as executable Lean
definitions, and proves or refutes the specification's claims about them.

Machine numbers: JavaScript numbers are IEEE-754 binary64 values; every
binary64 value in the normal range is an exact rational, so we model a
JavaScript number as the rational it denotes and each arithmetic operation
as exact rational arithmetic followed by rounding to the nearest binary64
(ties to even).  Overflow and subnormals are outside the range of any value
appearing here and are not modelled.
-/

/-- Normalize a positive rational `n / d` into `(n2, d2, e)` with
`n / d = (n2 / d2) * 2 ^ e` and `1 ≤ n2 / d2 < 2`.  `fuel` bounds the loop;
1200 steps cover the whole binary64 exponent range. -/
def normBin : Nat → Nat → Nat → Int → Nat × Nat × Int
  | 0, n, d, e => (n, d, e)
  | fuel+1, n, d, e =>
    if n < d then normBin fuel (2*n) d (e-1)
    else if 2*d ≤ n then normBin fuel n (2*d) (e+1)
    else (n, d, e)

/-- Round `n / d` (with `d > 0`) to the nearest integer, ties to even. -/
def rne (n d : Nat) : Nat :=
  let q := n / d
  let r := n % d
  if 2*r < d then q
  else if d < 2*r then q + 1
  else if q % 2 = 0 then q else q + 1

/-- The binary64 value nearest to the positive rational `n / d`, as an exact
rational: the significand is the 53-bit round-to-nearest-even approximation. -/
def froundPos (n d : Nat) : ℚ :=
  let t := normBin 1200 n d 0
  ((rne (t.1 * 2^52) t.2.1 : ℚ)) * (2:ℚ) ^ (t.2.2 - 52)

/-- Round a rational to the nearest binary64 value (round to nearest, ties to
even), returned as the exact rational that the binary64 bit pattern denotes. -/
def fround (q : ℚ) : ℚ :=
  if q = 0 then 0
  else if q < 0 then -froundPos q.num.natAbs q.den
  else froundPos q.num.natAbs q.den

/-- JavaScript `+` on numbers: exact sum, rounded to binary64. -/
def jsAdd (a b : ℚ) : ℚ := fround (a + b)

/-- JavaScript `*` on numbers: exact product, rounded to binary64. -/
def jsMul (a b : ℚ) : ℚ := fround (a * b)

/-- JavaScript `/` on numbers: exact quotient, rounded to binary64. -/
def jsDiv (a b : ℚ) : ℚ := fround (a / b)

/-- `Decimal.prototype.toNumber()` of the Prisma `Decimal` price: the nearest
binary64 value of the exact decimal. -/
def decimalToNumber (q : ℚ) : ℚ := fround q

/-!
Data model, translated from `prisma/schema.prisma`, restricted to the fields
the checkout and webhook handlers touch.  `OrderItem` rows are embedded as a
list inside their `Order` (the handlers only ever reach them through their
order).  The webhook handler writes `address` and `phone` fields on `Order`;
the checked-in schema no longer declares those columns, so they are modelled
as optional fields that only the webhook handler populates.
-/

/-- A `Product` row: `id`, `name`, `price` (a Prisma `Decimal`, i.e. an exact
decimal, modelled as the rational it denotes) and `inStock` (a signed `Int`
column). -/
structure Product where
  id : String
  name : String
  price : ℚ
  inStock : Int
deriving Repr, DecidableEq

/-- An `OrderItem` row: the referenced product and the ordered quantity. -/
structure OrderItem where
  productId : String
  quantity : Int
deriving Repr, DecidableEq

/-- The shipping fields of the checkout request body and of a
`ShippingDetails` row. -/
structure ShippingInput where
  addressLine1 : String
  addressLine2 : Option String
  city : String
  state : String
  zipCode : String
  country : String
  phoneNumber : String
deriving Repr, DecidableEq

/-- A persisted `ShippingDetails` row: generated id plus the input fields. -/
structure ShippingRow where
  id : String
  details : ShippingInput
deriving Repr, DecidableEq

/-- An `Order` row with its embedded `OrderItem` rows.  `address` and `phone`
are the two columns the stale webhook handler writes; they are absent from
the checked-in schema and modelled as options that start out `none`. -/
structure Order where
  id : String
  storeId : String
  isPaid : Bool
  isSent : Bool
  orderItems : List OrderItem
  shippingDetailsId : Option String
  address : Option String
  phone : Option String
deriving Repr, DecidableEq

/-- The database state the two handlers read and write. -/
structure Db where
  products : List Product
  orders : List Order
  shippingRows : List ShippingRow
deriving Repr, DecidableEq

/-- `tx.product.findUnique({ where: { id } })`. -/
def Db.findProduct (db : Db) (pid : String) : Option Product :=
  db.products.find? (fun p => p.id == pid)

/-- `tx.product.update({ where: { id }, data: { inStock } })`: write an
absolute stock value into the product row with the given id. -/
def Db.updateProductStock (db : Db) (pid : String) (v : Int) : Db :=
  { db with
    products := db.products.map (fun p => if p.id == pid then { p with inStock := v } else p) }

/-- `prismadb.order.findUnique`-style point read of an order row. -/
def Db.findOrder (db : Db) (oid : String) : Option Order :=
  db.orders.find? (fun o => o.id == oid)

/-- The `inStock` value of the product row with the given id, when present. -/
def Db.stockOf (db : Db) (pid : String) : Option Int :=
  (db.findProduct pid).map (fun p => p.inStock)

/-- The `isPaid` value of the order row with the given id, when present. -/
def Db.isPaidOf (db : Db) (oid : String) : Option Bool :=
  (db.findOrder oid).map (fun o => o.isPaid)

/-!
Checkout Transaction Orchestrator, translated from the `POST` handler of
`src/app/api/[storeId]/checkout/route.ts`.  The `prismadb.$transaction`
callback is embedded as an `Except`-valued function threading the database
state; a thrown `Error` becomes an `Except.error`, and the transaction
wrapper restores the initial state in that case (Prisma rolls the interactive
transaction back when the callback throws).  Generated uuids (`order.id`,
`shippingDetails.id`) are passed in as explicit parameters.
-/

/-- One entry of the checkout request body's `products` array. -/
structure CartItem where
  productId : String
  quantity : Int
deriving Repr, DecidableEq

/-- One entry of the handler's `line_items` array.  `unit_amount` is the
JavaScript number `product.price.toNumber() * 100`. -/
structure LineItem where
  name : String
  quantity : Int
  unit_amount : ℚ
deriving Repr, DecidableEq

/-- The errors thrown inside the transaction callback, one constructor per
`throw new Error(...)` site. -/
inductive CheckoutError where
  | productNotFound (productId : String)
  | insufficientStock (name : String)
  | noProducts
deriving Repr, DecidableEq

/-- The per-item loop of the transaction callback: look the product up, throw
when it is missing or `product.inStock < quantity`, push a line item, and
write back `product.inStock - quantity`. -/
def runCartItems (db : Db) (items : List CartItem) (acc : List LineItem) :
    Except CheckoutError (Db × List LineItem) :=
  match items with
  | [] => .ok (db, acc)
  | it :: rest =>
    match db.findProduct it.productId with
    | none => .error (.productNotFound it.productId)
    | some product =>
      if product.inStock < it.quantity then
        .error (.insufficientStock product.name)
      else
        runCartItems (db.updateProductStock it.productId (product.inStock - it.quantity))
          rest
          (acc ++ [({ name := product.name, quantity := it.quantity,
                      unit_amount := jsMul (decimalToNumber product.price) 100 } : LineItem)])

/-- `line_items.reduce((total, item) => total + item.unit_amount * item.quantity, 0)`
followed by `/ 100`, in JavaScript binary64 arithmetic. -/
def totalAmountOf (line_items : List LineItem) : ℚ :=
  jsDiv (line_items.foldl (fun total item => jsAdd total (jsMul item.unit_amount (item.quantity : ℚ))) 0) 100

/-- The body of `prismadb.$transaction`: process every cart item, create the
`ShippingDetails` row, create the `Order` row (with nested `OrderItem` rows
and `isPaid: false`), and return the order together with `totalAmount`. -/
def checkoutTxBody (db : Db) (storeId : String) (products : List CartItem)
    (shipping : ShippingInput) (sid oid : String) :
    Except CheckoutError (Db × Order × ℚ) :=
  match runCartItems db products [] with
  | .error e => .error e
  | .ok (db1, line_items) =>
    if line_items.length = 0 then .error .noProducts
    else
      let db2 := { db1 with
                   shippingRows := db1.shippingRows ++ [({ id := sid, details := shipping } : ShippingRow)] }
      let order : Order :=
        { id := oid, storeId := storeId, isPaid := false, isSent := false,
          orderItems := products.map (fun it => { productId := it.productId, quantity := it.quantity }),
          shippingDetailsId := some sid, address := none, phone := none }
      let db3 := { db2 with orders := db2.orders ++ [order] }
      .ok (db3, order, totalAmountOf line_items)

/-- The responses of the checkout `POST` handler that are decided by the code
under verification.  `success` carries the transaction result used to build
the payment request; the subsequent external processor call only affects
which HTTP body is produced, not the database state. -/
inductive CheckoutResponse where
  | productsRequired
  | shippingRequired
  | checkoutError (e : CheckoutError)
  | success (order : Order) (totalAmount : ℚ)
deriving Repr, DecidableEq

/-- The checkout `POST` handler: request validation, then the transaction
with rollback-on-throw (the `catch` turns any thrown error into a 400
response and leaves the database as it was). -/
def checkoutPOST (db : Db) (storeId : String) (products : List CartItem)
    (shippingDetails : Option ShippingInput) (sid oid : String) : Db × CheckoutResponse :=
  if products.isEmpty then (db, .productsRequired)
  else
    match shippingDetails with
    | none => (db, .shippingRequired)
    | some shipping =>
      match checkoutTxBody db storeId products shipping sid oid with
      | .error e => (db, .checkoutError e)
      | .ok (db1, order, total) => (db1, .success order total)

/-!
Payment Reconciliation Handler, translated from the `POST` handler of
`src/app/api/webhook/route.ts`.  `stripe.webhooks.constructEvent` is an
external library call; a request is modelled as the event it would yield
together with a flag saying whether signature verification succeeds (the
handler returns 400 and never reaches the database when it fails).  JavaScript
`null` and `undefined` shipping components are conflated into `none`; this
only affects the text of the address string, which no claim inspects.  The
per-item stock updates are started together under `Promise.all` and each runs
to completion independently (a rejection is logged by the enclosing `catch`
but neither cancels the other updates nor rolls anything back); they are
embedded as a sequential fold that skips a failing item, records its error
message, and continues, which yields the same final state for the
distinct-product order items the handlers create.
-/

/-- The fields of the Stripe checkout session the handler reads. -/
structure StripeSession where
  metadata_orderId : Option String
  shipping_name : Option String
  shipping_line1 : Option String
  shipping_line2 : Option String
  shipping_city : Option String
  shipping_state : Option String
  shipping_postalCode : Option String
  shipping_country : Option String
deriving Repr, DecidableEq

/-- The event `stripe.webhooks.constructEvent` yields: a type discriminator
string and the checkout-session payload. -/
structure StripeEvent where
  type : String
  session : StripeSession
deriving Repr, DecidableEq

/-- An inbound webhook request: whether its `Stripe-Signature` header
verifies against the pre-shared secret, and the event it carries. -/
structure WebhookRequest where
  sigOk : Bool
  event : StripeEvent
deriving Repr, DecidableEq

/-- The webhook handler's responses: `ok200` (the unconditional success
acknowledgment) or the 400 returned when signature verification throws. -/
inductive WebhookResponse where
  | ok200
  | webhookError400
deriving Repr, DecidableEq

/-- Errors of the `prismadb.order.update` call: the Prisma client rejects a
missing `where: { id }` value outright and fails when no row matches. -/
inductive PrismaError where
  | validationError
  | recordNotFound
deriving Repr, DecidableEq

/-- The `addressComponents.filter(...).join(", ")` string. -/
def addressStringOf (s : StripeSession) : String :=
  String.intercalate ", "
    (([s.shipping_line1, s.shipping_line2, s.shipping_city, s.shipping_state,
       s.shipping_postalCode, s.shipping_country]).filterMap id)

/-- `prismadb.order.update({ where: { id }, data: { isPaid: true, address,
phone }, include: { orderItems: true } })`: fail when the id is absent or no
order matches, otherwise write the payment confirmation and return the
updated row with its items. -/
def updateOrderPaid (db : Db) (oid? : Option String) (address phone : String) :
    Except PrismaError (Db × Order) :=
  match oid? with
  | none => .error .validationError
  | some oid =>
    match db.findOrder oid with
    | none => .error .recordNotFound
    | some o =>
      let o1 := { o with isPaid := true, address := some address, phone := some phone }
      .ok ({ db with orders := db.orders.map (fun x => if x.id == oid then o1 else x) }, o1)

/-- The `order.orderItems.map(...)` stock updates: for each item, read the
product, reject a missing product or `product.inStock < quantity` (the
rejection is only logged), otherwise write `product.inStock - quantity`.
Returns the final state and the error messages of the rejected items. -/
def fulfillOrderItems (db : Db) (items : List OrderItem) : Db × List String :=
  match items with
  | [] => (db, [])
  | it :: rest =>
    match db.findProduct it.productId with
    | none =>
      let r := fulfillOrderItems db rest
      (r.1, ("Product with id " ++ it.productId ++ " not found.") :: r.2)
    | some p =>
      if p.inStock < it.quantity then
        let r := fulfillOrderItems db rest
        (r.1, ("Not enough items in stock for product id " ++ it.productId ++ ".") :: r.2)
      else
        fulfillOrderItems (db.updateProductStock it.productId (p.inStock - it.quantity)) rest

/-- The webhook `POST` handler: reject a bad signature with 400 before any
database access; on a `checkout.session.completed` event mark the order paid
and decrement stock for its items, swallowing any error (the `catch` only
logs); answer 200 in every other case. -/
def webhookPOST (db : Db) (req : WebhookRequest) : Db × WebhookResponse :=
  if req.sigOk = false then (db, .webhookError400)
  else
    let s := req.event.session
    if req.event.type = "checkout.session.completed" then
      match updateOrderPaid db s.metadata_orderId (addressStringOf s)
              ((s.shipping_name).getD "") with
      | .error _ => (db, .ok200)
      | .ok (db1, order) =>
        let r := fulfillOrderItems db1 order.orderItems
        (r.1, .ok200)
    else (db, .ok200)

/-!
Concurrent checkouts.  The Prisma interactive transactions run at the MySQL
default isolation level (no `isolationLevel` is passed): each transaction's
`findUnique` reads come from a consistent snapshot, and each `update` writes
the absolute `inStock` value that was computed in JavaScript from that
snapshot, with a `where` clause on `id` only — the specification itself notes
(section 5) that such an unconditional write, unlike
`UPDATE ... WHERE inStock >= quantity`, lets a concurrent loser commit.  Two
transactions that both start from the same snapshot are modelled by running
the transaction body twice on the same initial state and applying the two
commits in sequence.
-/

/-- The `UPDATE` statements the transaction body issues, as (product id,
absolute new stock) pairs in program order, together with the success or
failure of the transaction. -/
def runCartWrites (db : Db) (items : List CartItem) :
    Except CheckoutError (Db × List (String × Int)) :=
  match items with
  | [] => .ok (db, [])
  | it :: rest =>
    match db.findProduct it.productId with
    | none => .error (.productNotFound it.productId)
    | some product =>
      if product.inStock < it.quantity then
        .error (.insufficientStock product.name)
      else
        match runCartWrites (db.updateProductStock it.productId (product.inStock - it.quantity)) rest with
        | .error e => .error e
        | .ok (db1, ws) => .ok (db1, (it.productId, product.inStock - it.quantity) :: ws)

/-- Apply a committed transaction's stock writes to the shared database. -/
def commitStockWrites (db : Db) (ws : List (String × Int)) : Db :=
  match ws with
  | [] => db
  | (pid, v) :: rest => commitStockWrites (db.updateProductStock pid v) rest

/-- Two checkout transactions that both read the initial snapshot `db`:
each runs the stock-check-then-write body on the snapshot, a failed body
rolls back, and the successful bodies commit one after the other.  Returns
the two outcomes and the final shared state. -/
def concurrentCheckouts (db : Db) (c1 c2 : List CartItem) :
    Except CheckoutError Unit × Except CheckoutError Unit × Db :=
  let r1 := runCartWrites db c1
  let r2 := runCartWrites db c2
  let db1 := match r1 with
    | .ok (_, ws) => commitStockWrites db ws
    | .error _ => db
  let db2 := match r2 with
    | .ok (_, ws) => commitStockWrites db1 ws
    | .error _ => db1
  (r1.map (fun _ => ()), r2.map (fun _ => ()), db2)

/-- Abbreviation for the order row as rewritten by the webhook's payment
confirmation update. -/
def paidVersion (o : Order) (address phone : String) : Order :=
  { o with isPaid := true, address := some address, phone := some phone }

/-- Abbreviation for the order table after the webhook's payment confirmation
update replaced the rows matching `oid`. -/
def Db.setOrder (db : Db) (oid : String) (o1 : Order) : Db :=
  { db with orders := db.orders.map (fun a => if a.id == oid then o1 else a) }

/-- True exactly on the checkout handler's insufficient-stock failure
response. -/
def CheckoutResponse.isInsufficientStock : CheckoutResponse → Bool
  | .checkoutError (.insufficientStock _) => true
  | _ => false

/-- True exactly on the checkout handler's success response. -/
def CheckoutResponse.isSuccess : CheckoutResponse → Bool
  | .success _ _ => true
  | _ => false

/-- The `totalAmount` carried by a checkout success response. -/
def CheckoutResponse.totalAmount? : CheckoutResponse → Option ℚ
  | .success _ t => some t
  | _ => none

/-!
Concrete store states and requests used by the closed evaluations and the
witnesses.
-/

/-- A small store state: one product with five units in stock and one unpaid
order for two units of it. -/
def storeDb : Db :=
  { products := [{ id := "P", name := "Product P", price := 10, inStock := 5 }],
    orders := [{ id := "O", storeId := "S", isPaid := false, isSent := false,
                 orderItems := [{ productId := "P", quantity := 2 }],
                 shippingDetailsId := none, address := none, phone := none }],
    shippingRows := [] }

/-- The unpaid order row of `storeDb`. -/
def orderO : Order :=
  { id := "O", storeId := "S", isPaid := false, isSent := false,
    orderItems := [{ productId := "P", quantity := 2 }],
    shippingDetailsId := none, address := none, phone := none }

/-- The store state of `storeDb` with only one unit of product `P` left. -/
def shortStockDb : Db :=
  { storeDb with
    products := [{ id := "P", name := "Product P", price := 10, inStock := 1 }] }

/-- The same store state with order `O` already marked paid. -/
def paidStoreDb : Db :=
  { storeDb with
    orders := [{ id := "O", storeId := "S", isPaid := true, isSent := false,
                 orderItems := [{ productId := "P", quantity := 2 }],
                 shippingDetailsId := none, address := none, phone := none }] }

/-- A verified `checkout.session.completed` notification for order `O`. -/
def completedReq : WebhookRequest :=
  { sigOk := true,
    event := { type := "checkout.session.completed",
               session := { metadata_orderId := some "O", shipping_name := some "Jane Doe",
                            shipping_line1 := some "1 Main St", shipping_line2 := none,
                            shipping_city := some "Kigali", shipping_state := some "KG",
                            shipping_postalCode := some "00000", shipping_country := some "RW" } } }

/-- The same verified notification with a correlation token that matches no
order. -/
def unknownOrderReq : WebhookRequest :=
  { completedReq with
    event := { completedReq.event with
               session := { completedReq.event.session with metadata_orderId := some "MISSING" } } }

/-- A cart asking for two units of product `P`. -/
def twoCart : List CartItem := [{ productId := "P", quantity := 2 }]

/-- The verified completed-checkout notification for the order `oid9` that
the checkout of `twoCart` creates. -/
def confirmReq : WebhookRequest :=
  { completedReq with
    event := { completedReq.event with
               session := { completedReq.event.session with metadata_orderId := some "oid9" } } }

/-- A fully populated shipping-details request body. -/
def sampleShipping : ShippingInput :=
  { addressLine1 := "1 Main St", addressLine2 := none, city := "Kigali", state := "KG",
    zipCode := "00000", country := "RW", phoneNumber := "0780000000" }

/-- A store with two products whose prices are not exactly representable in
binary64: one cent and seven cents. -/
def floatCartDb : Db :=
  { products := [{ id := "P1", name := "one cent", price := 1/100, inStock := 5 },
                 { id := "P2", name := "seven cents", price := 7/100, inStock := 5 }],
    orders := [], shippingRows := [] }

/-- A cart buying one unit of the one-cent product and three units of the
seven-cent product: exact total 0.22. -/
def floatCart : List CartItem :=
  [{ productId := "P1", quantity := 1 }, { productId := "P2", quantity := 3 }]

/-- The binary64 value the checkout handler computes as `totalAmount` for
`floatCart`, as an exact rational. -/
def driftedTotal : ℚ := 3963167672086037 / 18014398509481984

/-- A cart asking for three units of product `P`. -/
def raceCart : List CartItem := [{ productId := "P", quantity := 3 }]

/-!
Auxiliary lemmas about the storage primitives.
-/

/-- `find?` commutes with mapping a function that does not change the
predicate's verdict. -/
theorem find?_map_congr {α : Type} (l : List α) (f : α → α) (q : α → Bool)
    (h : ∀ a, q (f a) = q a) :
    (l.map f).find? q = (l.find? q).map f := by
  induction l with
  | nil => rfl
  | cons a t ih =>
    by_cases hq : q a = true
    · rw [List.map_cons, List.find?_cons_of_pos _ (by rw [h a]; exact hq),
        List.find?_cons_of_pos _ hq]
      rfl
    · rw [List.map_cons, List.find?_cons_of_neg _ (by rw [h a]; exact hq),
        List.find?_cons_of_neg _ hq, ih]

/-- A product returned by a point read carries the id it was looked up by. -/
theorem Db.findProduct_id {db : Db} {x : String} {p : Product}
    (h : db.findProduct x = some p) : p.id = x := by
  have h2 : db.products.find? (fun q => q.id == x) = some p := h
  have h3 := List.find?_some h2
  simp only [] at h3
  exact beq_iff_eq.mp h3

/-- An order returned by a point read carries the id it was looked up by. -/
theorem Db.findOrder_id {db : Db} {x : String} {o : Order}
    (h : db.findOrder x = some o) : o.id = x := by
  have h2 : db.orders.find? (fun q => q.id == x) = some o := h
  have h3 := List.find?_some h2
  simp only [] at h3
  exact beq_iff_eq.mp h3

/-- Effect of a stock write on an arbitrary later point read. -/
theorem Db.findProduct_update (db : Db) (pid : String) (v : Int) (x : String) :
    (db.updateProductStock pid v).findProduct x
      = (db.findProduct x).map (fun p => if p.id == pid then { p with inStock := v } else p) := by
  show (db.products.map _).find? _ = _
  refine find?_map_congr _ _ _ ?_
  intro a
  by_cases hp : (a.id == pid) = true <;> simp [hp]

/-- A stock write leaves the product rows of every other id untouched. -/
theorem Db.findProduct_update_ne (db : Db) (pid : String) (v : Int) (x : String)
    (h : x ≠ pid) :
    (db.updateProductStock pid v).findProduct x = db.findProduct x := by
  rw [Db.findProduct_update]
  cases hfp : db.findProduct x with
  | none => rfl
  | some p =>
    have hid : p.id = x := Db.findProduct_id hfp
    simp [hid, h]

/-- A stock write makes the written value visible to a point read of the
same id. -/
theorem Db.findProduct_update_self (db : Db) (pid : String) (v : Int) (p : Product)
    (h : db.findProduct pid = some p) :
    (db.updateProductStock pid v).findProduct pid = some { p with inStock := v } := by
  rw [Db.findProduct_update, h]
  have hid : p.id = pid := Db.findProduct_id h
  simp [hid]

/-- A stock write does not touch the order table. -/
theorem Db.updateProductStock_orders (db : Db) (pid : String) (v : Int) :
    (db.updateProductStock pid v).orders = db.orders := rfl

/-- A stock write does not touch the shipping-details table. -/
theorem Db.updateProductStock_shippingRows (db : Db) (pid : String) (v : Int) :
    (db.updateProductStock pid v).shippingRows = db.shippingRows := rfl

/-- Every product row after a stock write is either the rewritten row or an
untouched original row. -/
theorem Db.mem_update_products {db : Db} {pid : String} {v : Int} {x : Product}
    (hx : x ∈ (db.updateProductStock pid v).products) :
    ∃ a ∈ db.products, x = if a.id == pid then { a with inStock := v } else a := by
  obtain ⟨a, ha, hfa⟩ := List.mem_map.mp hx
  exact ⟨a, ha, hfa.symm⟩

/-- The per-item checkout loop on a cart of pairwise-distinct, existing,
sufficiently stocked products succeeds, decrements each referenced product's
stock by exactly the requested quantity, and touches nothing else. -/
theorem runCartItems_ok (items : List CartItem) : ∀ (db : Db) (acc : List LineItem),
    (∀ it ∈ items, ∃ p, db.findProduct it.productId = some p ∧ it.quantity ≤ p.inStock) →
    (items.map (fun it => it.productId)).Nodup →
    ∃ db1 lis, runCartItems db items acc = .ok (db1, lis) ∧
      lis.length = acc.length + items.length ∧
      db1.orders = db.orders ∧
      db1.shippingRows = db.shippingRows ∧
      (∀ x, x ∉ items.map (fun it => it.productId) → db1.findProduct x = db.findProduct x) ∧
      (∀ it ∈ items, ∀ p, db.findProduct it.productId = some p →
        db1.findProduct it.productId = some { p with inStock := p.inStock - it.quantity }) := by
  induction items with
  | nil =>
    intro db acc _ _
    exact ⟨db, acc, rfl, by simp, rfl, rfl, fun x _ => rfl, by simp⟩
  | cons it0 rest ih =>
    intro db acc hok hnodup
    obtain ⟨p0, hp0, hle0⟩ := hok it0 (List.mem_cons_self it0 rest)
    have hnd := List.nodup_cons.mp hnodup
    have hne0 : ∀ it ∈ rest, it.productId ≠ it0.productId := by
      intro it hit heq
      apply hnd.1
      show it0.productId ∈ List.map (fun jt => jt.productId) rest
      rw [← heq]
      exact List.mem_map_of_mem (fun jt => jt.productId) hit
    set v0 : Int := p0.inStock - it0.quantity with hv0
    set db' : Db := db.updateProductStock it0.productId v0 with hdb'
    have hfind' : ∀ x, x ≠ it0.productId → db'.findProduct x = db.findProduct x := by
      intro x hx
      exact Db.findProduct_update_ne db it0.productId v0 x hx
    have hok' : ∀ it ∈ rest, ∃ p, db'.findProduct it.productId = some p ∧ it.quantity ≤ p.inStock := by
      intro it hit
      obtain ⟨p, hp, hq⟩ := hok it (List.mem_cons_of_mem _ hit)
      exact ⟨p, (hfind' it.productId (hne0 it hit)).trans hp, hq⟩
    obtain ⟨db1, lis, hrun, hlen, hord, hship, hother, heff⟩ := ih db'
      (acc ++ [({ name := p0.name, quantity := it0.quantity,
                  unit_amount := jsMul (decimalToNumber p0.price) 100 } : LineItem)]) hok' hnd.2
    refine ⟨db1, lis, ?_, ?_, ?_, ?_, ?_, ?_⟩
    · show runCartItems db (it0 :: rest) acc = .ok (db1, lis)
      simp only [runCartItems, hp0]
      rw [if_neg (not_lt.mpr hle0)]
      exact hrun
    · simp at hlen
      simp [hlen]
      omega
    · rw [hord, hdb', Db.updateProductStock_orders]
    · rw [hship, hdb', Db.updateProductStock_shippingRows]
    · intro x hx
      have hx0 : x ≠ it0.productId := by
        intro h
        exact hx (h ▸ List.mem_cons_self _ _)
      have hxr : x ∉ rest.map (fun it => it.productId) := by
        intro h
        exact hx (List.mem_cons_of_mem _ h)
      rw [hother x hxr, hfind' x hx0]
    · intro it hit p hp
      rcases List.mem_cons.mp hit with h | h
      · rw [h] at hp ⊢
        have hpp : p = p0 := by
          rw [hp0] at hp
          exact (Option.some.inj hp).symm
        rw [hpp]
        rw [hother it0.productId hnd.1]
        exact Db.findProduct_update_self db it0.productId v0 p0 hp0
      · have hpq : db'.findProduct it.productId = some p :=
          (hfind' it.productId (hne0 it h)).trans hp
        exact heff it h p hpq

/-- After one guarded stock write, every product row still exists and its
stock has not increased (the written value is a guarded decrement). -/
theorem Db.findProduct_update_le {db : Db} {pid0 : String} {p0 : Product} {q0 : Int}
    (hp0 : db.findProduct pid0 = some p0) (hq0 : 0 ≤ q0) {x : String} {p : Product}
    (hp : db.findProduct x = some p) :
    ∃ p2, (db.updateProductStock pid0 (p0.inStock - q0)).findProduct x = some p2 ∧
      p2.inStock ≤ p.inStock := by
  rw [Db.findProduct_update, hp]
  refine ⟨_, rfl, ?_⟩
  show (if (p.id == pid0) = true then { p with inStock := p0.inStock - q0 } else p).inStock
        ≤ p.inStock
  by_cases hid : (p.id == pid0) = true
  · have hxp : x = pid0 := by
      rw [← Db.findProduct_id hp]
      exact beq_iff_eq.mp hid
    have hpp0 : p = p0 := by
      rw [hxp, hp0] at hp
      exact (Option.some.inj hp).symm
    rw [if_pos hid]
    show p0.inStock - q0 ≤ p.inStock
    rw [hpp0]
    omega
  · rw [if_neg hid]

/-- Successful checkout: validation passes, the transaction commits, the new
order is appended with `isPaid = false` and the cart's items, each referenced
product's stock is decremented by the requested quantity, and product rows
outside the cart are untouched. -/
theorem checkoutPOST_ok (db : Db) (storeId : String) (cart : List CartItem)
    (sh : ShippingInput) (sid oid : String)
    (hne : cart ≠ [])
    (hnodup : (cart.map (fun it => it.productId)).Nodup)
    (hok : ∀ it ∈ cart, ∃ p, db.findProduct it.productId = some p ∧ it.quantity ≤ p.inStock) :
    ∃ db1 order total,
      checkoutPOST db storeId cart (some sh) sid oid = (db1, .success order total) ∧
      order.id = oid ∧ order.isPaid = false ∧
      order.orderItems
        = cart.map (fun it => ({ productId := it.productId, quantity := it.quantity } : OrderItem)) ∧
      db1.orders = db.orders ++ [order] ∧
      (∀ x, x ∉ cart.map (fun it => it.productId) → db1.findProduct x = db.findProduct x) ∧
      (∀ it ∈ cart, ∀ p, db.findProduct it.productId = some p →
        db1.findProduct it.productId = some { p with inStock := p.inStock - it.quantity }) := by
  obtain ⟨dbA, lis, hrun, hlen, hord, hship, hother, heff⟩ := runCartItems_ok cart db [] hok hnodup
  have hemp : cart.isEmpty = false := by
    cases cart with
    | nil => exact absurd rfl hne
    | cons a t => rfl
  have hlen0 : ¬ lis.length = 0 := by
    simp only [List.length_nil] at hlen
    cases cart with
    | nil => exact absurd rfl hne
    | cons a t => rw [hlen]; simp
  refine ⟨?db1, ?ord, ?tot, ?heq, ?h1, ?h2, ?h3, ?h4, ?h5, ?h6⟩
  case heq =>
    simp only [checkoutPOST, hemp, Bool.false_eq_true, if_false, checkoutTxBody, hrun]
    rw [if_neg hlen0]
    exact rfl
  case h1 => rfl
  case h2 => rfl
  case h3 => rfl
  case h4 =>
    show _ ++ _ = db.orders ++ _
    rw [hord]
  case h5 =>
    intro x hx
    show dbA.findProduct x = db.findProduct x
    exact hother x hx
  case h6 =>
    intro it hit p hp
    show dbA.findProduct it.productId = _
    exact heff it hit p hp

/-- The webhook's per-item fulfillment fold never touches the order or
shipping-details tables. -/
theorem fulfillOrderItems_tables (items : List OrderItem) : ∀ db : Db,
    (fulfillOrderItems db items).1.orders = db.orders ∧
    (fulfillOrderItems db items).1.shippingRows = db.shippingRows := by
  induction items with
  | nil => intro db; exact ⟨rfl, rfl⟩
  | cons it rest ih =>
    intro db
    cases hfp : db.findProduct it.productId with
    | none =>
      simp only [fulfillOrderItems, hfp]
      exact ih db
    | some p =>
      by_cases hlt : p.inStock < it.quantity
      · simp only [fulfillOrderItems, hfp]
        rw [if_pos hlt]
        exact ih db
      · simp only [fulfillOrderItems, hfp]
        rw [if_neg hlt]
        exact ih _

/-- The fulfillment fold on pairwise-distinct, existing, sufficiently stocked
order items records no error, decrements each referenced product's stock by
its quantity, and leaves other product rows untouched. -/
theorem fulfillOrderItems_ok (items : List OrderItem) : ∀ db : Db,
    (∀ it ∈ items, ∃ p, db.findProduct it.productId = some p ∧ it.quantity ≤ p.inStock) →
    (items.map (fun it => it.productId)).Nodup →
    (fulfillOrderItems db items).2 = [] ∧
    (∀ x, x ∉ items.map (fun it => it.productId) →
      (fulfillOrderItems db items).1.findProduct x = db.findProduct x) ∧
    (∀ it ∈ items, ∀ p, db.findProduct it.productId = some p →
      (fulfillOrderItems db items).1.findProduct it.productId
        = some { p with inStock := p.inStock - it.quantity }) := by
  induction items with
  | nil =>
    intro db _ _
    exact ⟨rfl, fun x _ => rfl, by simp⟩
  | cons it0 rest ih =>
    intro db hok hnodup
    obtain ⟨p0, hp0, hle0⟩ := hok it0 (List.mem_cons_self it0 rest)
    have hnd := List.nodup_cons.mp hnodup
    have hne0 : ∀ it ∈ rest, it.productId ≠ it0.productId := by
      intro it hit heq
      apply hnd.1
      show it0.productId ∈ List.map (fun jt => jt.productId) rest
      rw [← heq]
      exact List.mem_map_of_mem (fun jt => jt.productId) hit
    set v0 : Int := p0.inStock - it0.quantity with hv0
    set db' : Db := db.updateProductStock it0.productId v0 with hdb'
    have hfind' : ∀ x, x ≠ it0.productId → db'.findProduct x = db.findProduct x := by
      intro x hx
      exact Db.findProduct_update_ne db it0.productId v0 x hx
    have hok' : ∀ it ∈ rest, ∃ p, db'.findProduct it.productId = some p ∧ it.quantity ≤ p.inStock := by
      intro it hit
      obtain ⟨p, hp, hq⟩ := hok it (List.mem_cons_of_mem _ hit)
      exact ⟨p, (hfind' it.productId (hne0 it hit)).trans hp, hq⟩
    obtain ⟨herr, hother, heff⟩ := ih db' hok' hnd.2
    have hstep : fulfillOrderItems db (it0 :: rest) = fulfillOrderItems db' rest := by
      simp only [fulfillOrderItems, hp0]
      rw [if_neg (not_lt.mpr hle0)]
    refine ⟨by rw [hstep]; exact herr, ?_, ?_⟩
    · intro x hx
      have hx0 : x ≠ it0.productId := by
        intro h
        exact hx (h ▸ List.mem_cons_self _ _)
      have hxr : x ∉ rest.map (fun it => it.productId) := by
        intro h
        exact hx (List.mem_cons_of_mem _ h)
      rw [hstep, hother x hxr, hfind' x hx0]
    · intro it hit p hp
      rcases List.mem_cons.mp hit with h | h
      · rw [h] at hp ⊢
        have hpp : p = p0 := by
          rw [hp0] at hp
          exact (Option.some.inj hp).symm
        rw [hpp, hstep, hother it0.productId hnd.1]
        exact Db.findProduct_update_self db it0.productId v0 p0 hp0
      · have hpq : db'.findProduct it.productId = some p :=
          (hfind' it.productId (hne0 it h)).trans hp
        rw [hstep]
        exact heff it h p hpq

/-- Writing a nonnegative stock value preserves nonnegativity of every stock
count. -/
theorem Db.update_nonneg {db : Db} {pid : String} {v : Int}
    (h : ∀ p ∈ db.products, 0 ≤ p.inStock) (hv : 0 ≤ v) :
    ∀ p ∈ (db.updateProductStock pid v).products, 0 ≤ p.inStock := by
  intro x hx
  obtain ⟨a, ha, hfa⟩ := Db.mem_update_products hx
  by_cases hid : (a.id == pid) = true
  · rw [hfa, if_pos hid]
    exact hv
  · rw [hfa, if_neg hid]
    exact h a ha

/-- The checkout loop only ever writes guarded decrements, so it preserves
nonnegativity of every stock count. -/
theorem runCartItems_nonneg (items : List CartItem) : ∀ (db : Db) (acc : List LineItem)
    (db1 : Db) (lis : List LineItem),
    runCartItems db items acc = .ok (db1, lis) →
    (∀ p ∈ db.products, 0 ≤ p.inStock) →
    ∀ p ∈ db1.products, 0 ≤ p.inStock := by
  induction items with
  | nil =>
    intro db acc db1 lis h hpos
    obtain ⟨rfl, rfl⟩ : db = db1 ∧ acc = lis := by
      have h2 : Except.ok (ε := CheckoutError) (db, acc) = .ok (db1, lis) := h
      simpa using h2
    exact hpos
  | cons it0 rest ih =>
    intro db acc db1 lis h hpos
    cases hfp : db.findProduct it0.productId with
    | none =>
      simp only [runCartItems, hfp] at h
      exact absurd h (by simp)
    | some p0 =>
      simp only [runCartItems, hfp] at h
      by_cases hlt : p0.inStock < it0.quantity
      · rw [if_pos hlt] at h
        exact absurd h (by simp)
      · rw [if_neg hlt] at h
        exact ih _ _ _ _ h (Db.update_nonneg hpos (by omega))

/-- The fulfillment fold only ever writes guarded decrements, so it preserves
nonnegativity of every stock count. -/
theorem fulfillOrderItems_nonneg (items : List OrderItem) : ∀ db : Db,
    (∀ p ∈ db.products, 0 ≤ p.inStock) →
    ∀ p ∈ (fulfillOrderItems db items).1.products, 0 ≤ p.inStock := by
  induction items with
  | nil => intro db hpos; exact hpos
  | cons it0 rest ih =>
    intro db hpos
    cases hfp : db.findProduct it0.productId with
    | none =>
      simp only [fulfillOrderItems, hfp]
      exact ih db hpos
    | some p0 =>
      by_cases hlt : p0.inStock < it0.quantity
      · simp only [fulfillOrderItems, hfp]
        rw [if_pos hlt]
        exact ih db hpos
      · simp only [fulfillOrderItems, hfp]
        rw [if_neg hlt]
        exact ih _ (Db.update_nonneg hpos (by omega))

/-- If every cart product exists, quantities are nonnegative, and some cart
item asks for more than the available stock, the checkout loop throws the
insufficient-stock error. -/
theorem runCartItems_insufficient (items : List CartItem) : ∀ (db : Db) (acc : List LineItem),
    (∀ it ∈ items, ∃ p, db.findProduct it.productId = some p) →
    (∀ it ∈ items, 0 ≤ it.quantity) →
    (∃ it ∈ items, ∀ p, db.findProduct it.productId = some p → p.inStock < it.quantity) →
    ∃ nm, runCartItems db items acc = .error (.insufficientStock nm) := by
  induction items with
  | nil =>
    intro db acc _ _ hex
    obtain ⟨it, hit, _⟩ := hex
    exact absurd hit (List.not_mem_nil it)
  | cons it0 rest ih =>
    intro db acc hfound hq hex
    obtain ⟨p0, hp0⟩ := hfound it0 (List.mem_cons_self it0 rest)
    by_cases hlt : p0.inStock < it0.quantity
    · refine ⟨p0.name, ?_⟩
      simp only [runCartItems, hp0]
      rw [if_pos hlt]
    · obtain ⟨it, hit, hover⟩ := hex
      have hitr : it ∈ rest := by
        rcases List.mem_cons.mp hit with h | h
        · exfalso
          apply hlt
          have hp0x : db.findProduct it.productId = some p0 := by rw [h]; exact hp0
          have hlt2 := hover p0 hp0x
          rw [h] at hlt2
          exact hlt2
        · exact h
      have hq0 : 0 ≤ it0.quantity := hq it0 (List.mem_cons_self it0 rest)
      set db' : Db := db.updateProductStock it0.productId (p0.inStock - it0.quantity) with hdb'
      have hfound' : ∀ jt ∈ rest, ∃ p, db'.findProduct jt.productId = some p := by
        intro jt hjt
        obtain ⟨p, hp⟩ := hfound jt (List.mem_cons_of_mem _ hjt)
        obtain ⟨p2, hp2, _⟩ := Db.findProduct_update_le hp0 hq0 hp
        exact ⟨p2, hp2⟩
      have hex' : ∃ jt ∈ rest, ∀ p, db'.findProduct jt.productId = some p →
          p.inStock < jt.quantity := by
        refine ⟨it, hitr, ?_⟩
        intro p2 hp2
        obtain ⟨p, hp⟩ := hfound it (List.mem_cons_of_mem _ hitr)
        obtain ⟨p3, hp3, hle3⟩ := Db.findProduct_update_le hp0 hq0 hp
        have : p2 = p3 := by
          rw [hp2] at hp3
          exact Option.some.inj hp3
        rw [this]
        exact lt_of_le_of_lt hle3 (hover p hp)
      obtain ⟨nm, hnm⟩ := ih db' _ hfound' (fun jt hjt => hq jt (List.mem_cons_of_mem _ hjt)) hex'
      refine ⟨nm, ?_⟩
      simp only [runCartItems, hp0]
      rw [if_neg hlt]
      exact hnm

/-- If quantities are nonnegative and some order item references an existing
product whose stock is below its quantity, the fulfillment fold records at
least one error message. -/
theorem fulfillOrderItems_short (items : List OrderItem) : ∀ db : Db,
    (∀ it ∈ items, 0 ≤ it.quantity) →
    (∃ it ∈ items, ∃ p, db.findProduct it.productId = some p ∧ p.inStock < it.quantity) →
    (fulfillOrderItems db items).2 ≠ [] := by
  induction items with
  | nil =>
    intro db _ hex
    obtain ⟨it, hit, _⟩ := hex
    exact absurd hit (List.not_mem_nil it)
  | cons it0 rest ih =>
    intro db hq hex
    cases hfp : db.findProduct it0.productId with
    | none =>
      simp only [fulfillOrderItems, hfp]
      simp
    | some p0 =>
      by_cases hlt : p0.inStock < it0.quantity
      · simp only [fulfillOrderItems, hfp]
        rw [if_pos hlt]
        simp
      · obtain ⟨it, hit, p, hp, hshort⟩ := hex
        have hitr : it ∈ rest := by
          rcases List.mem_cons.mp hit with h | h
          · exfalso
            rw [h] at hp
            rw [hfp] at hp
            have : p = p0 := Option.some.inj hp.symm
            rw [this] at hshort
            rw [h] at hshort
            exact hlt hshort
          · exact h
        have hq0 : 0 ≤ it0.quantity := hq it0 (List.mem_cons_self it0 rest)
        obtain ⟨p2, hp2, hle2⟩ := Db.findProduct_update_le hfp hq0 hp
        have hex' : ∃ jt ∈ rest, ∃ p3,
            (db.updateProductStock it0.productId (p0.inStock - it0.quantity)).findProduct jt.productId
              = some p3 ∧ p3.inStock < jt.quantity :=
          ⟨it, hitr, p2, hp2, lt_of_le_of_lt hle2 hshort⟩
        have := ih _ (fun jt hjt => hq jt (List.mem_cons_of_mem _ hjt)) hex'
        simp only [fulfillOrderItems, hfp]
        rw [if_neg hlt]
        exact this

/-- The payment-confirmation update leaves the product table untouched. -/
theorem Db.setOrder_products (db : Db) (oid : String) (o1 : Order) :
    (db.setOrder oid o1).products = db.products := rfl

/-- Reading an order after the payment-confirmation update returns the
original read with the replacement applied. -/
theorem Db.setOrder_findOrder {oid : String} {o1 : Order} (db : Db) (h1 : o1.id = oid)
    (x : String) :
    (db.setOrder oid o1).findOrder x
      = (db.findOrder x).map (fun a => if a.id == oid then o1 else a) := by
  show (db.orders.map _).find? _ = _
  refine find?_map_congr _ _ _ ?_
  intro a
  by_cases hid : (a.id == oid) = true
  · rw [if_pos hid, h1, beq_iff_eq.mp hid]
  · rw [if_neg hid]

/-- Unfolding of the order update on a found order. -/
theorem updateOrderPaid_found {db : Db} {oid : String} {o : Order} (address phone : String)
    (h : db.findOrder oid = some o) :
    updateOrderPaid db (some oid) address phone
      = .ok (db.setOrder oid (paidVersion o address phone), paidVersion o address phone) := by
  simp only [updateOrderPaid, h]
  rfl

/-- Unfolding of the webhook handler on a verified `checkout.session.completed`
event whose correlation token resolves to an existing order. -/
theorem webhookPOST_completed {db : Db} {req : WebhookRequest} {oid : String} {o : Order}
    (hsig : req.sigOk = true)
    (htype : req.event.type = "checkout.session.completed")
    (hoid : req.event.session.metadata_orderId = some oid)
    (ho : db.findOrder oid = some o) :
    webhookPOST db req
      = ((fulfillOrderItems
            (db.setOrder oid (paidVersion o (addressStringOf req.event.session)
              ((req.event.session.shipping_name).getD "")))
            o.orderItems).1,
         .ok200) := by
  simp only [webhookPOST, hsig, htype, hoid]
  rw [if_neg (by simp [hsig])]
  simp only [if_true]
  rw [updateOrderPaid_found _ _ ho]
  rfl

/-- The checkout loop never touches the order or shipping-details tables. -/
theorem runCartItems_tables (items : List CartItem) : ∀ (db : Db) (acc : List LineItem)
    (db1 : Db) (lis : List LineItem),
    runCartItems db items acc = .ok (db1, lis) →
    db1.orders = db.orders ∧ db1.shippingRows = db.shippingRows := by
  induction items with
  | nil =>
    intro db acc db1 lis h
    obtain ⟨rfl, rfl⟩ : db = db1 ∧ acc = lis := by
      have h2 : Except.ok (ε := CheckoutError) (db, acc) = .ok (db1, lis) := h
      simpa using h2
    exact ⟨rfl, rfl⟩
  | cons it0 rest ih =>
    intro db acc db1 lis h
    cases hfp : db.findProduct it0.productId with
    | none =>
      simp only [runCartItems, hfp] at h
      exact absurd h (by simp)
    | some p0 =>
      simp only [runCartItems, hfp] at h
      by_cases hlt : p0.inStock < it0.quantity
      · rw [if_pos hlt] at h
        exact absurd h (by simp)
      · rw [if_neg hlt] at h
        exact ih (db.updateProductStock it0.productId (p0.inStock - it0.quantity)) _ db1 lis h

/-- Dissection of a committed checkout transaction: the run of the item loop
it contains, the shape of the created order, and how the final state relates
to the loop's final state. -/
theorem checkoutTxBody_ok_shape {db : Db} {storeId : String} {cart : List CartItem}
    {sh : ShippingInput} {sid oid : String} {db1 : Db} {order : Order} {total : ℚ}
    (h : checkoutTxBody db storeId cart sh sid oid = .ok (db1, order, total)) :
    ∃ dbA lis, runCartItems db cart [] = .ok (dbA, lis) ∧
      order.isPaid = false ∧ order.id = oid ∧
      db1.products = dbA.products ∧
      db1.orders = dbA.orders ++ [order] := by
  unfold checkoutTxBody at h
  cases hrun : runCartItems db cart [] with
  | error e =>
    rw [hrun] at h
    exact absurd h (by simp)
  | ok pr =>
    obtain ⟨dbA, lis⟩ := pr
    rw [hrun] at h
    simp only [] at h
    by_cases hl : lis.length = 0
    · rw [if_pos hl] at h
      exact absurd h (by simp)
    · rw [if_neg hl] at h
      simp only [Except.ok.injEq, Prod.mk.injEq] at h
      obtain ⟨h1, h2, h3⟩ := h
      subst h1
      refine ⟨dbA, lis, rfl, ?_, ?_, rfl, ?_⟩
      · rw [← h2]
      · rw [← h2]
      · rw [← h2]

/-!
The claims.
-/

/-- C6: a webhook request whose signature does not verify against the
pre-shared secret is rejected with the 400 response before the handler
reaches the database: the returned state is the input state, so no Order or
Product row is read or written. -/
theorem webhook_invalid_signature_rejected_untouched (db : Db) (req : WebhookRequest)
    (h : req.sigOk = false) :
    webhookPOST db req = (db, .webhookError400) := by
  simp [webhookPOST, h]

/-- Witness for C6 at a concrete request and store state. -/
theorem webhook_invalid_signature_rejected_untouched_witness :
    ({ completedReq with sigOk := false } : WebhookRequest).sigOk = false ∧
    webhookPOST storeDb { completedReq with sigOk := false } = (storeDb, .webhookError400) :=
  ⟨rfl, webhook_invalid_signature_rejected_untouched storeDb _ rfl⟩

/-- C2: when every cart item references an existing product, quantities are
nonnegative, and at least one item requests more than the referenced
product's available stock, the checkout handler fails with the
insufficient-stock error and the enclosing transaction rolls back completely:
the returned state is the unchanged input database, so no `Product.inStock`
is mutated and no Order, OrderItem or ShippingDetails row is created. -/
theorem checkout_insufficient_stock_rolls_back (db : Db) (storeId : String)
    (cart : List CartItem) (sh : ShippingInput) (sid oid : String)
    (hfound : ∀ it ∈ cart, ∃ p, db.findProduct it.productId = some p)
    (hq : ∀ it ∈ cart, 0 ≤ it.quantity)
    (hover : ∃ it ∈ cart, ∀ p, db.findProduct it.productId = some p → p.inStock < it.quantity) :
    (checkoutPOST db storeId cart (some sh) sid oid).1 = db ∧
    ((checkoutPOST db storeId cart (some sh) sid oid).2).isInsufficientStock = true := by
  obtain ⟨nm, hnm⟩ := runCartItems_insufficient cart db [] hfound hq hover
  have hne : cart ≠ [] := by
    obtain ⟨it, hit, _⟩ := hover
    intro hcart
    rw [hcart] at hit
    exact List.not_mem_nil it hit
  have hemp : cart.isEmpty = false := by
    cases cart with
    | nil => exact absurd rfl hne
    | cons a t => rfl
  have hred : checkoutPOST db storeId cart (some sh) sid oid
      = (db, .checkoutError (.insufficientStock nm)) := by
    simp only [checkoutPOST, hemp, Bool.false_eq_true, if_false, checkoutTxBody, hnm]
  exact ⟨by rw [hred], by rw [hred]; rfl⟩

/-- Witness for C2: a cart asking for ten units with only five in stock is
rejected with the insufficient-stock error and the store state is unchanged. -/
theorem checkout_insufficient_stock_rolls_back_witness :
    (checkoutPOST storeDb "S" [{ productId := "P", quantity := 10 }]
        (some sampleShipping) "sid" "oid").1 = storeDb ∧
    ((checkoutPOST storeDb "S" [{ productId := "P", quantity := 10 }]
        (some sampleShipping) "sid" "oid").2).isInsufficientStock = true :=
  checkout_insufficient_stock_rolls_back storeDb "S" _ sampleShipping "sid" "oid"
    (by
      intro it hit
      simp only [List.mem_singleton] at hit
      rw [hit]
      exact ⟨{ id := "P", name := "Product P", price := 10, inStock := 5 }, rfl⟩)
    (by
      intro it hit
      simp only [List.mem_singleton] at hit
      rw [hit]
      decide)
    (by
      refine ⟨{ productId := "P", quantity := 10 }, by simp, ?_⟩
      intro p hp
      have hp2 : p = { id := "P", name := "Product P", price := 10, inStock := 5 } :=
        Option.some.inj hp.symm
      rw [hp2]
      decide)

/-- C9: if every stock count is nonnegative, it stays nonnegative across the
checkout handler and across the webhook handler (every write is a guarded
decrement), and a checkout that does not succeed leaves the database
untouched (the transaction aborts without writing). -/
theorem stock_nonnegative_invariant (db : Db)
    (hpos : ∀ p ∈ db.products, 0 ≤ p.inStock) :
    (∀ storeId cart sh sid oid,
      ∀ p ∈ (checkoutPOST db storeId cart sh sid oid).1.products, 0 ≤ p.inStock) ∧
    (∀ req, ∀ p ∈ (webhookPOST db req).1.products, 0 ≤ p.inStock) ∧
    (∀ storeId cart sh sid oid,
      ((checkoutPOST db storeId cart sh sid oid).2).isSuccess = false →
      (checkoutPOST db storeId cart sh sid oid).1 = db) := by
  have hcheckout : ∀ storeId cart sh sid oid,
      ((checkoutPOST db storeId cart sh sid oid).1 = db ∧
        ((checkoutPOST db storeId cart sh sid oid).2).isSuccess = false) ∨
      (∃ dbA lis, runCartItems db cart [] = .ok (dbA, lis) ∧
        (checkoutPOST db storeId cart sh sid oid).1.products = dbA.products ∧
        ((checkoutPOST db storeId cart sh sid oid).2).isSuccess = true) := by
    intro storeId cart sh sid oid
    by_cases hemp : cart.isEmpty = true
    · left
      simp only [checkoutPOST, hemp, if_true]
      exact ⟨trivial, rfl⟩
    · have hemp2 : cart.isEmpty = false := by
        revert hemp
        cases cart.isEmpty <;> simp
      cases sh with
      | none =>
        left
        simp only [checkoutPOST, hemp2, Bool.false_eq_true, if_false]
        exact ⟨trivial, rfl⟩
      | some s =>
        cases hres : checkoutTxBody db storeId cart s sid oid with
        | error e =>
          left
          simp only [checkoutPOST, hemp2, Bool.false_eq_true, if_false, hres]
          exact ⟨trivial, rfl⟩
        | ok tri =>
          right
          obtain ⟨db1, order, total⟩ := tri
          obtain ⟨dbA, lis, hrun, _, _, hprod, _⟩ := checkoutTxBody_ok_shape hres
          refine ⟨dbA, lis, hrun, ?_, ?_⟩
          · simp only [checkoutPOST, hemp2, Bool.false_eq_true, if_false, hres]
            exact hprod
          · simp only [checkoutPOST, hemp2, Bool.false_eq_true, if_false, hres]
            rfl
  refine ⟨?_, ?_, ?_⟩
  · intro storeId cart sh sid oid
    rcases hcheckout storeId cart sh sid oid with ⟨heq, _⟩ | ⟨dbA, lis, hrun, hprod, _⟩
    · rw [heq]
      exact hpos
    · rw [hprod]
      exact runCartItems_nonneg cart db [] dbA lis hrun hpos
  · intro req
    by_cases hsig : req.sigOk = false
    · rw [webhook_invalid_signature_rejected_untouched db req hsig]
      exact hpos
    · have hsig2 : req.sigOk = true := by
        revert hsig
        cases req.sigOk <;> simp
      by_cases htype2 : req.event.type = "checkout.session.completed"
      case neg =>
        simp only [webhookPOST, hsig2]
        rw [if_neg (by simp [hsig2]), if_neg htype2]
        exact hpos
      case pos =>
        have htype : req.event.type = "checkout.session.completed" := htype2
        cases hoid : req.event.session.metadata_orderId with
        | none =>
          simp only [webhookPOST, hsig2, htype, hoid]
          rw [if_neg (by simp [hsig2])]
          simp only [if_true, updateOrderPaid]
          exact hpos
        | some oid =>
          cases ho : db.findOrder oid with
          | none =>
            simp only [webhookPOST, hsig2, htype, hoid]
            rw [if_neg (by simp [hsig2])]
            simp only [if_true, updateOrderPaid, ho]
            exact hpos
          | some o =>
            rw [webhookPOST_completed hsig2 htype hoid ho]
            refine fulfillOrderItems_nonneg o.orderItems _ ?_
            intro p hp
            exact hpos p hp
  · intro storeId cart sh sid oid hfail
    rcases hcheckout storeId cart sh sid oid with ⟨heq, _⟩ | ⟨dbA, lis, hrun, hprod, hsucc⟩
    · exact heq
    · rw [hsucc] at hfail
      exact absurd hfail (by simp)

/-- Witness for C9: the sample store satisfies the invariant, and after the
payment notification decrements `P` to three units its stock is still
nonnegative. -/
theorem stock_nonnegative_invariant_witness :
    (∀ p ∈ storeDb.products, 0 ≤ p.inStock) ∧
    0 ≤ ({ id := "P", name := "Product P", price := 10, inStock := 3 } : Product).inStock :=
  ⟨by decide, (stock_nonnegative_invariant storeDb (by decide)).2.1 completedReq
    { id := "P", name := "Product P", price := 10, inStock := 3 } (by decide)⟩

/-- C8: `Order.isPaid` is monotonic false-to-true across the two operations
of the core: every order the checkout handler creates starts with
`isPaid = false`, and neither the checkout handler nor the webhook handler
ever turns an order whose `isPaid` is `true` back to `false`. -/
theorem order_isPaid_monotonic (db : Db) :
    (∀ storeId cart sh sid oid order total,
      (checkoutPOST db storeId cart sh sid oid).2 = .success order total →
      order.isPaid = false) ∧
    (∀ storeId cart sh sid oid oid2 o o2,
      db.findOrder oid2 = some o → o.isPaid = true →
      (checkoutPOST db storeId cart sh sid oid).1.findOrder oid2 = some o2 →
      o2.isPaid = true) ∧
    (∀ req oid2 o o2,
      db.findOrder oid2 = some o → o.isPaid = true →
      (webhookPOST db req).1.findOrder oid2 = some o2 →
      o2.isPaid = true) := by
  have hcheckout : ∀ storeId cart sh sid oid,
      (checkoutPOST db storeId cart sh sid oid = (db, (checkoutPOST db storeId cart sh sid oid).2) ∧
        (∀ order total, (checkoutPOST db storeId cart sh sid oid).2 ≠ .success order total)) ∨
      (∃ db1 order total, checkoutPOST db storeId cart sh sid oid = (db1, .success order total) ∧
        order.isPaid = false ∧
        (∃ dbA, db1.orders = dbA ++ [order] ∧ dbA = db.orders)) := by
    intro storeId cart sh sid oid
    by_cases hemp : cart.isEmpty = true
    · left
      simp only [checkoutPOST, hemp, if_true]
      exact ⟨trivial, fun order total h => by simp at h⟩
    · have hemp2 : cart.isEmpty = false := by
        revert hemp
        cases cart.isEmpty <;> simp
      cases sh with
      | none =>
        left
        simp only [checkoutPOST, hemp2, Bool.false_eq_true, if_false]
        exact ⟨trivial, fun order total h => by simp at h⟩
      | some s =>
        cases hres : checkoutTxBody db storeId cart s sid oid with
        | error e =>
          left
          simp only [checkoutPOST, hemp2, Bool.false_eq_true, if_false, hres]
          exact ⟨trivial, fun order total h => by simp at h⟩
        | ok tri =>
          right
          obtain ⟨db1, order, total⟩ := tri
          obtain ⟨dbA, lis, hrun, hpaid, _, _, hords⟩ := checkoutTxBody_ok_shape hres
          obtain ⟨htab, _⟩ := runCartItems_tables cart db [] dbA lis hrun
          refine ⟨db1, order, total, ?_, hpaid, dbA.orders, hords, htab⟩
          simp only [checkoutPOST, hemp2, Bool.false_eq_true, if_false, hres]
  refine ⟨?_, ?_, ?_⟩
  · intro storeId cart sh sid oid order total h
    rcases hcheckout storeId cart sh sid oid with ⟨_, hnone⟩ | ⟨db1, order1, total1, heq, hpaid, _⟩
    · exact absurd h (hnone order total)
    · rw [heq] at h
      simp only [] at h
      obtain ⟨h1, h2⟩ := CheckoutResponse.success.inj h
      rw [← h1]
      exact hpaid
  · intro storeId cart sh sid oid oid2 o o2 ho hopaid ho2
    rcases hcheckout storeId cart sh sid oid with ⟨heq, _⟩ | ⟨db1, order1, total1, heq, _, dbA, hords, htab⟩
    · rw [heq] at ho2
      simp only [] at ho2
      rw [ho] at ho2
      rw [← Option.some.inj ho2]
      exact hopaid
    · rw [heq] at ho2
      simp only [] at ho2
      have hfind : db1.findOrder oid2 = some o := by
        show db1.orders.find? (fun a => a.id == oid2) = some o
        rw [hords, htab, List.find?_append]
        have hh : db.orders.find? (fun a => a.id == oid2) = some o := ho
        rw [hh]
        rfl
      rw [hfind] at ho2
      rw [← Option.some.inj ho2]
      exact hopaid
  · intro req oid2 o o2 ho hopaid ho2
    by_cases hsig : req.sigOk = false
    · rw [webhook_invalid_signature_rejected_untouched db req hsig] at ho2
      simp only [] at ho2
      rw [ho] at ho2
      rw [← Option.some.inj ho2]
      exact hopaid
    · have hsig2 : req.sigOk = true := by
        revert hsig
        cases req.sigOk <;> simp
      by_cases htype : req.event.type = "checkout.session.completed"
      case neg =>
        have heq : webhookPOST db req = (db, .ok200) := by
          simp only [webhookPOST, hsig2]
          rw [if_neg (by simp [hsig2]), if_neg htype]
        rw [heq] at ho2
        simp only [] at ho2
        rw [ho] at ho2
        rw [← Option.some.inj ho2]
        exact hopaid
      case pos =>
        cases hoid : req.event.session.metadata_orderId with
        | none =>
          have heq : webhookPOST db req = (db, .ok200) := by
            simp only [webhookPOST, hsig2, htype, hoid]
            rw [if_neg (by simp [hsig2])]
            simp only [if_true, updateOrderPaid]
          rw [heq] at ho2
          simp only [] at ho2
          rw [ho] at ho2
          rw [← Option.some.inj ho2]
          exact hopaid
        | some oid =>
          cases hfo : db.findOrder oid with
          | none =>
            have heq : webhookPOST db req = (db, .ok200) := by
              simp only [webhookPOST, hsig2, htype, hoid]
              rw [if_neg (by simp [hsig2])]
              simp only [if_true, updateOrderPaid, hfo]
            rw [heq] at ho2
            simp only [] at ho2
            rw [ho] at ho2
            rw [← Option.some.inj ho2]
            exact hopaid
          | some oo =>
            rw [webhookPOST_completed hsig2 htype hoid hfo] at ho2
            set pv : Order := paidVersion oo (addressStringOf req.event.session) ((req.event.session.shipping_name).getD "") with hpv
            have hooid : pv.id = oid := by
              show oo.id = oid
              exact Db.findOrder_id hfo
            have hfulfill := (fulfillOrderItems_tables oo.orderItems (db.setOrder oid pv)).1
            have ho2b : (db.setOrder oid pv).findOrder oid2 = some o2 := by
              rw [← ho2]
              show (db.setOrder oid pv).orders.find? (fun a => a.id == oid2)
                  = (fulfillOrderItems (db.setOrder oid pv) oo.orderItems).1.orders.find?
                      (fun a => a.id == oid2)
              rw [hfulfill]
            rw [Db.setOrder_findOrder db hooid, ho] at ho2b
            simp only [Option.map] at ho2b
            rw [← Option.some.inj ho2b]
            by_cases hid : (o.id == oid) = true
            · rw [if_pos hid]
              rfl
            · rw [if_neg hid]
              exact hopaid

/-- Witness for C8: delivering the payment notification to a store whose
order `O` is already paid leaves that order paid. -/
theorem order_isPaid_monotonic_witness :
    (webhookPOST paidStoreDb completedReq).1.findOrder "O"
      = some { id := "O", storeId := "S", isPaid := true, isSent := false,
               orderItems := [{ productId := "P", quantity := 2 }],
               shippingDetailsId := none,
               address := some "1 Main St, Kigali, KG, 00000, RW",
               phone := some "Jane Doe" } ∧
    ({ id := "O", storeId := "S", isPaid := true, isSent := false,
       orderItems := [{ productId := "P", quantity := 2 }],
       shippingDetailsId := none,
       address := some "1 Main St, Kigali, KG, 00000, RW",
       phone := some "Jane Doe" } : Order).isPaid = true :=
  ⟨rfl,
   (order_isPaid_monotonic paidStoreDb).2.2 completedReq "O"
     { id := "O", storeId := "S", isPaid := true, isSent := false,
       orderItems := [{ productId := "P", quantity := 2 }],
       shippingDetailsId := none, address := none, phone := none }
     { id := "O", storeId := "S", isPaid := true, isSent := false,
       orderItems := [{ productId := "P", quantity := 2 }],
       shippingDetailsId := none,
       address := some "1 Main St, Kigali, KG, 00000, RW",
       phone := some "Jane Doe" }
     rfl rfl rfl⟩

/-- C5 counterexample: a verified notification whose correlation token
matches no order does NOT make the handler fail with an order-not-found
error: the handler catches the failed update internally and answers with the
200 success acknowledgment (while indeed changing no row). -/
theorem webhook_unknown_order_acks_200 :
    webhookPOST storeDb unknownOrderReq = (storeDb, .ok200) ∧
    (webhookPOST storeDb unknownOrderReq).2 ≠ .webhookError400 :=
  ⟨rfl, by decide⟩

/-- C5 amended: on a verified completed-checkout notification whose
correlation token matches no order, the inner `order.update` fails with the
record-not-found error, the handler swallows that error, changes no Order or
Product row, and still returns the 200 success acknowledgment instead of an
order-not-found failure. -/
theorem webhook_unknown_order_swallows_error (db : Db) (req : WebhookRequest) (oid : String)
    (hsig : req.sigOk = true)
    (htype : req.event.type = "checkout.session.completed")
    (hoid : req.event.session.metadata_orderId = some oid)
    (hmiss : db.findOrder oid = none) :
    updateOrderPaid db (some oid) (addressStringOf req.event.session)
        ((req.event.session.shipping_name).getD "") = .error .recordNotFound ∧
    webhookPOST db req = (db, .ok200) := by
  have hupd : updateOrderPaid db (some oid) (addressStringOf req.event.session)
      ((req.event.session.shipping_name).getD "") = .error .recordNotFound := by
    simp only [updateOrderPaid, hmiss]
  refine ⟨hupd, ?_⟩
  simp only [webhookPOST, hsig, htype, hoid]
  rw [if_neg (by simp [hsig])]
  simp only [if_true]
  rw [hupd]

/-- Witness for the amended C5 at a concrete store state and notification. -/
theorem webhook_unknown_order_swallows_error_witness :
    updateOrderPaid storeDb (some "MISSING") (addressStringOf unknownOrderReq.event.session)
        ((unknownOrderReq.event.session.shipping_name).getD "") = .error .recordNotFound ∧
    webhookPOST storeDb unknownOrderReq = (storeDb, .ok200) :=
  webhook_unknown_order_swallows_error storeDb unknownOrderReq "MISSING" rfl rfl rfl rfl

/-- C7: when, at confirmation time, some order item's product lacks
sufficient stock, the handler records a failure message for that item, does
not revert the already-applied `isPaid = true` (the order ends up marked
paid), and still returns the 200 success acknowledgment. -/
theorem webhook_shortfall_keeps_order_paid (db : Db) (req : WebhookRequest) (oid : String)
    (o : Order) (it : OrderItem) (p : Product)
    (hsig : req.sigOk = true)
    (htype : req.event.type = "checkout.session.completed")
    (hoid : req.event.session.metadata_orderId = some oid)
    (ho : db.findOrder oid = some o)
    (hq : ∀ jt ∈ o.orderItems, 0 ≤ jt.quantity)
    (hit : it ∈ o.orderItems)
    (hp : db.findProduct it.productId = some p)
    (hshort : p.inStock < it.quantity) :
    (webhookPOST db req).2 = .ok200 ∧
    (webhookPOST db req).1.isPaidOf oid = some true ∧
    (fulfillOrderItems (db.setOrder oid (paidVersion o (addressStringOf req.event.session)
        ((req.event.session.shipping_name).getD ""))) o.orderItems).2 ≠ [] := by
  have hw := webhookPOST_completed hsig htype hoid ho
  set pv : Order := paidVersion o (addressStringOf req.event.session) ((req.event.session.shipping_name).getD "") with hpv
  have hpvid : pv.id = oid := by
    show o.id = oid
    exact Db.findOrder_id ho
  have hprodU : (db.setOrder oid pv).findProduct it.productId = some p := by
    show (db.setOrder oid pv).products.find? (fun a => a.id == it.productId) = some p
    rw [Db.setOrder_products]
    exact hp
  refine ⟨by rw [hw], ?_, ?_⟩
  · rw [hw]
    have htab := (fulfillOrderItems_tables o.orderItems (db.setOrder oid pv)).1
    have hfind : (fulfillOrderItems (db.setOrder oid pv) o.orderItems).1.findOrder oid
        = (db.setOrder oid pv).findOrder oid := by
      show (fulfillOrderItems (db.setOrder oid pv) o.orderItems).1.orders.find?
            (fun a => a.id == oid)
          = (db.setOrder oid pv).orders.find? (fun a => a.id == oid)
      rw [htab]
    show ((fulfillOrderItems (db.setOrder oid pv) o.orderItems).1.findOrder oid).map
        (fun a => a.isPaid) = some true
    rw [hfind, Db.setOrder_findOrder db hpvid, ho]
    simp only [Option.map]
    have hid : (o.id == oid) = true := beq_iff_eq.mpr (Db.findOrder_id ho)
    rw [if_pos hid]
    rfl
  · exact fulfillOrderItems_short o.orderItems (db.setOrder oid pv) hq
      ⟨it, hit, p, hprodU, hshort⟩

/-- Witness for C7: a store whose product has only one unit left receives the
payment confirmation for an order of two units: the order is marked paid, a
failure is recorded for the item, and the handler answers 200. -/
theorem webhook_shortfall_keeps_order_paid_witness :
    (webhookPOST shortStockDb completedReq).2 = .ok200 ∧
    (webhookPOST shortStockDb completedReq).1.isPaidOf "O" = some true ∧
    (fulfillOrderItems
      (shortStockDb.setOrder "O" (paidVersion orderO
        (addressStringOf completedReq.event.session)
        ((completedReq.event.session.shipping_name).getD "")))
      orderO.orderItems).2 ≠ [] :=
  webhook_shortfall_keeps_order_paid shortStockDb completedReq "O" orderO
    { productId := "P", quantity := 2 }
    { id := "P", name := "Product P", price := 10, inStock := 1 }
    rfl rfl rfl rfl
    (by
      intro jt hjt
      simp only [orderO, List.mem_singleton] at hjt
      rw [hjt]
      decide)
    (by simp [orderO])
    rfl
    (by decide)

/-- C4: an order that is created through checkout and later confirmed by a
verified completed-checkout notification has each line item's product stock
decremented twice — once by the checkout transaction (reservation) and again
by the confirmation handler — so the final stock of each cart product is its
initial stock minus twice the requested quantity. -/
theorem checkout_then_webhook_decrements_twice (db : Db) (storeId : String)
    (cart : List CartItem) (sh : ShippingInput) (sid oid : String) (req : WebhookRequest)
    (hne : cart ≠ [])
    (hnodup : (cart.map (fun it => it.productId)).Nodup)
    (hstock : ∀ it ∈ cart, ∃ p, db.findProduct it.productId = some p ∧
      0 ≤ it.quantity ∧ 2 * it.quantity ≤ p.inStock)
    (hfresh : db.findOrder oid = none)
    (hsig : req.sigOk = true)
    (htype : req.event.type = "checkout.session.completed")
    (hoid : req.event.session.metadata_orderId = some oid) :
    ∃ db1 order total db2,
      checkoutPOST db storeId cart (some sh) sid oid = (db1, .success order total) ∧
      webhookPOST db1 req = (db2, .ok200) ∧
      (∀ it ∈ cart, ∀ p, db.findProduct it.productId = some p →
        db1.stockOf it.productId = some (p.inStock - it.quantity) ∧
        db2.stockOf it.productId = some (p.inStock - 2 * it.quantity)) := by
  have hok : ∀ it ∈ cart, ∃ p, db.findProduct it.productId = some p ∧ it.quantity ≤ p.inStock := by
    intro it hit
    obtain ⟨p, hp, hq, h2q⟩ := hstock it hit
    exact ⟨p, hp, by omega⟩
  obtain ⟨db1, order, total, heq, hid, hpaid, hitems, hords, hother, heff⟩ :=
    checkoutPOST_ok db storeId cart sh sid oid hne hnodup hok
  have hfind1 : db1.findOrder oid = some order := by
    show db1.orders.find? (fun a => a.id == oid) = some order
    rw [hords, List.find?_append]
    have hmiss : db.orders.find? (fun a => a.id == oid) = none := hfresh
    rw [hmiss]
    show List.find? (fun a => a.id == oid) [order] = some order
    have hpred : ((fun (a : Order) => a.id == oid) order) = true := beq_iff_eq.mpr hid
    exact List.find?_cons_of_pos _ hpred
  have hw := webhookPOST_completed hsig htype hoid hfind1
  set pv : Order := paidVersion order (addressStringOf req.event.session) ((req.event.session.shipping_name).getD "") with hpv
  have hpvid : pv.id = oid := hid
  have hprodsU : ∀ x, (db1.setOrder oid pv).findProduct x = db1.findProduct x := by
    intro x
    show (db1.setOrder oid pv).products.find? (fun a => a.id == x) = _
    rw [Db.setOrder_products]
    rfl
  have hpids : (order.orderItems.map (fun it => it.productId))
      = cart.map (fun it => it.productId) := by
    rw [hitems, List.map_map]
    rfl
  have hokU : ∀ jt ∈ order.orderItems, ∃ p,
      (db1.setOrder oid pv).findProduct jt.productId = some p ∧ jt.quantity ≤ p.inStock := by
    rw [hitems]
    intro jt hjt
    obtain ⟨it, hit, hjt2⟩ := List.mem_map.mp hjt
    obtain ⟨p, hp, hq, h2q⟩ := hstock it hit
    refine ⟨{ p with inStock := p.inStock - it.quantity }, ?_, ?_⟩
    · rw [hprodsU]
      rw [← hjt2]
      exact heff it hit p hp
    · rw [← hjt2]
      show it.quantity ≤ p.inStock - it.quantity
      omega
  have hnodupU : (order.orderItems.map (fun it => it.productId)).Nodup := by
    rw [hpids]
    exact hnodup
  obtain ⟨herr, hotherU, heffU⟩ := fulfillOrderItems_ok order.orderItems
    (db1.setOrder oid pv) hokU hnodupU
  refine ⟨db1, order, total, (fulfillOrderItems (db1.setOrder oid pv) order.orderItems).1,
    heq, hw, ?_⟩
  intro it hit p hp
  have hstep1 : db1.findProduct it.productId = some { p with inStock := p.inStock - it.quantity } :=
    heff it hit p hp
  constructor
  · show (db1.findProduct it.productId).map (fun q => q.inStock) = _
    rw [hstep1]
    rfl
  · have hjt : ({ productId := it.productId, quantity := it.quantity } : OrderItem)
        ∈ order.orderItems := by
      rw [hitems]
      exact List.mem_map_of_mem _ hit
    have hU : (db1.setOrder oid pv).findProduct it.productId
        = some { p with inStock := p.inStock - it.quantity } := by
      rw [hprodsU]
      exact hstep1
    have := heffU { productId := it.productId, quantity := it.quantity } hjt
      { p with inStock := p.inStock - it.quantity } hU
    show ((fulfillOrderItems (db1.setOrder oid pv) order.orderItems).1.findProduct
        it.productId).map (fun q => q.inStock) = _
    rw [this]
    show some (p.inStock - it.quantity - it.quantity) = some (p.inStock - 2 * it.quantity)
    congr 1
    ring

/-- Witness for C4: checking out two units of `P` (stock five) and then
confirming the created order leaves one unit in stock — the five initial
units minus two at reservation and two more at confirmation. -/
theorem checkout_then_webhook_decrements_twice_witness :
    (0 : Int) ≤ 2 ∧ 2 * 2 ≤ (5 : Int) ∧
    (webhookPOST (checkoutPOST storeDb "S" twoCart (some sampleShipping) "sid9" "oid9").1
      confirmReq).1.stockOf "P" = some 1 := by
  obtain ⟨db1, order, total, db2, heq, hw, hstock⟩ :=
    checkout_then_webhook_decrements_twice storeDb "S" twoCart sampleShipping "sid9" "oid9"
      confirmReq
      (by simp [twoCart])
      (by simp [twoCart])
      (by
        intro it hit
        simp only [twoCart, List.mem_singleton] at hit
        rw [hit]
        exact ⟨{ id := "P", name := "Product P", price := 10, inStock := 5 }, rfl,
          by decide, by decide⟩)
      rfl rfl rfl rfl
  refine ⟨by decide, by decide, ?_⟩
  have h1 : (checkoutPOST storeDb "S" twoCart (some sampleShipping) "sid9" "oid9").1 = db1 := by
    rw [heq]
  rw [h1, hw]
  have h2 := (hstock { productId := "P", quantity := 2 } (by simp [twoCart])
    { id := "P", name := "Product P", price := 10, inStock := 5 } rfl).2
  have h3 : (5 : Int) - 2 * 2 = 1 := by decide
  rw [h3] at h2
  exact h2

/-- C1 evaluation: the handler has no already-paid check, so delivering the
same completed-checkout notification twice for the two-unit order `O` (stock
five) decrements stock on BOTH deliveries: the final stock is 1, not the 3
that a single decrement per item would leave; `isPaid` does remain true.  The
claimed short-circuit on `isPaid = true` does not exist in the code. -/
theorem webhook_duplicate_delivery_double_decrement :
    (webhookPOST (webhookPOST storeDb completedReq).1 completedReq).1.stockOf "P" = some 1 ∧
    (webhookPOST (webhookPOST storeDb completedReq).1 completedReq).1.stockOf "P" ≠ some 3 ∧
    (webhookPOST (webhookPOST storeDb completedReq).1 completedReq).1.isPaidOf "O" = some true :=
  ⟨rfl, by decide, rfl⟩

/-- C3 evaluation: the handler computes `totalAmount` in binary64 floating
point (`price.toNumber() * 100`, float accumulation, `/ 100`), so the cart
of one 0.01-priced unit and three 0.07-priced units yields the drifted value
0.22000000000000003 = 3963167672086037 / 2^54 instead of the exact
fixed-point sum 0.22. -/
theorem checkout_total_floating_point_drift :
    (checkoutPOST floatCartDb "S" floatCart (some sampleShipping) "sid" "oid").2.totalAmount?
      = some driftedTotal ∧
    driftedTotal ≠ 22 / 100 := by
  constructor
  · set_option maxRecDepth 1000000 in
    with_unfolding_all rfl
  · norm_num [driftedTotal]

/-- C10 evaluation: two checkout transactions that read the same snapshot
(stock five, each requesting three) BOTH succeed, because the decrement is an
unconditional `update` by id of a snapshot-computed value rather than the
claimed conditional `UPDATE ... WHERE inStock >= quantity`; the committed
stock is 2 even though six units were sold.  The claimed
exactly-one-succeeds outcome does not hold. -/
theorem concurrent_checkouts_oversell :
    (concurrentCheckouts storeDb raceCart raceCart).1 = .ok () ∧
    (concurrentCheckouts storeDb raceCart raceCart).2.1 = .ok () ∧
    (concurrentCheckouts storeDb raceCart raceCart).2.2.stockOf "P" = some 2 ∧
    (5 : Int) < 3 + 3 :=
  ⟨rfl, rfl, rfl, by decide⟩
